import Mathlib

/-!
Shallow embedding of the TPM-backed key lifecycle module (lib/tpm.c) of the
gnutls repository, together with proofs of the specification's claims about
it.

Modelling conventions:
* Native chip result codes (`TSS_RESULT`) are modelled by `TssResult`, with
  the distinguished codes that `tss_err` and `tpm_sign_fn` inspect as
  dedicated constructors and every other native code as `TssCode.other n`.
* Calls into the chip/daemon (`Tspi_*`) are external, blocking calls whose
  outcome the caller cannot influence; each embedded function is therefore
  parametrised by a record of call outcomes (an oracle), and additionally
  produces a trace of `ChipEvent`s recording the chip-visible actions it
  performed (object creations, closes, secret settings, log lines).
* Chip handles (`TSS_HCONTEXT`, `TSS_HKEY`, `TSS_HPOLICY`) are `Nat`s,
  with `0` the null/closed handle, exactly as the C code uses zeroing.
* `gnutls_malloc` (defined outside this repository's src/ subset) is plain
  non-zeroing allocation; the embedded `import_tpm_key` therefore takes the
  arbitrary prior contents of the allocated `tpm_ctx_st` as a parameter.
* Undefined behaviour (`strlen(NULL)`) is modelled by `CResult.undef`.
-/

/-- gnutls error codes surfaced by this module (negative ints in C). -/
inductive GErr where
  | tpmSessionError
  | tpmSrkPasswordError
  | tpmError
  | tpmKeyPasswordError
  | insufficientCredentials
  | pkSignFailed
  | parsingError
  | invalidRequest
  | memoryError
  | otherErr (n : Nat)
deriving DecidableEq, Repr

/-- The native chip error codes distinguished by the module; every other
native code is `other n`. -/
inductive TssCode where
  | commFailure
  | noConnection
  | connectionFailed
  | connectionBroken
  | authFail
  | other (n : Nat)
deriving DecidableEq, Repr

/-- Outcome of a `Tspi_*` chip call: `TSS_SUCCESS` (zero) or a nonzero code. -/
inductive TssResult where
  | success
  | error (c : TssCode)
deriving DecidableEq, Repr

/-- Error mapper `tss_err`: translates a nonzero native chip code into a
gnutls error code (communication failures to the session error, chip
authorization failure to the SRK password error, all else to the generic
TPM error). -/
def tss_err (c : TssCode) : GErr :=
  match c with
  | .commFailure => .tpmSessionError
  | .noConnection => .tpmSessionError
  | .connectionFailed => .tpmSessionError
  | .connectionBroken => .tpmSessionError
  | .authFail => .tpmSrkPasswordError
  | .other _ => .tpmError

/-- The C `struct tpm_ctx_st`: chip context, key handle, key policy handle,
SRK handle and SRK policy handle (0 = null/closed). -/
structure TpmCtxSt where
  tpm_ctx : Nat
  tpm_key : Nat
  tpm_key_policy : Nat
  srk : Nat
  srk_policy : Nat
deriving DecidableEq, Repr

/-- Chip-visible actions performed by the embedded functions, recorded as a
trace. -/
inductive ChipEvent where
  | createHashObj
  | closeHashObj
  | closeObject (h : Nat)
  | closeContext (h : Nat)
  | createPolicyObj
  | assignPolicy
  | policySetSecret (h : Nat)
  | srkSecretPlain
  | srkSecretWellKnown
  | logLoadBlobFail
  | logSignFail
deriving DecidableEq, Repr

/-- Oracle for the three chip calls made by `tpm_sign_fn`: hash object
creation, digest injection, and the sign operation. -/
structure SignChip where
  createHash : TssResult
  setValue : TssResult
  sign : TssResult
deriving DecidableEq, Repr

/-- Embedding of `tpm_sign_fn` (lib/tpm.c lines 99-143): create a transient
hash object, set the digest value, sign, closing the hash object on every
path after it was created; an authorization failure from the chip's sign
operation maps to `insufficientCredentials`, every other failure to
`pkSignFailed`, and the debug log on sign failure is emitted only when a key
policy already exists or the failure is not an authorization failure. -/
def tpm_sign_fn (s : TpmCtxSt) (chip : SignChip) :
    Except GErr Unit × List ChipEvent :=
  match chip.createHash with
  | .error _ => (.error .pkSignFailed, [])
  | .success =>
    match chip.setValue with
    | .error _ =>
      (.error .pkSignFailed, [.createHashObj, .closeHashObj])
    | .success =>
      match chip.sign with
      | .error e =>
        let lg := if s.tpm_key_policy ≠ 0 ∨ e ≠ .authFail then
            [ChipEvent.logSignFail] else []
        if e = .authFail then
          (.error .insufficientCredentials, [.createHashObj, .closeHashObj] ++ lg)
        else
          (.error .pkSignFailed, [.createHashObj, .closeHashObj] ++ lg)
      | .success => (.ok (), [.createHashObj, .closeHashObj])

/-- Oracle for the chip calls made by `tpm_open_session`, together with the
handles the chip hands out on success. -/
structure SessionChip where
  ctxHandle : Nat
  srkHandle : Nat
  policyHandle : Nat
  createCtx : TssResult
  connect : TssResult
  loadSrk : TssResult
  getPolicy : TssResult
  setSecret : TssResult
deriving DecidableEq, Repr

/-- Embedding of `tpm_open_session` (lib/tpm.c lines 148-215): create a chip
context, connect, load the SRK by its well-known UUID, fetch its usage
policy and set its secret (caller password in plain mode, else the
well-known 20-byte null secret in SHA1 mode); any failure rolls back the
handles acquired so far, zeroing them. -/
def tpm_open_session (s : TpmCtxSt) (srk_password : Option String)
    (chip : SessionChip) : Except GErr Unit × TpmCtxSt × List ChipEvent :=
  match chip.createCtx with
  | .error e => (.error (tss_err e), s, [])
  | .success =>
    let s1 : TpmCtxSt := { s with tpm_ctx := chip.ctxHandle }
    match chip.connect with
    | .error e =>
      (.error (tss_err e), { s1 with tpm_ctx := 0 }, [.closeContext s1.tpm_ctx])
    | .success =>
      match chip.loadSrk with
      | .error e =>
        (.error (tss_err e), { s1 with tpm_ctx := 0 }, [.closeContext s1.tpm_ctx])
      | .success =>
        let s2 : TpmCtxSt := { s1 with srk := chip.srkHandle }
        match chip.getPolicy with
        | .error e =>
          (.error (tss_err e), { s2 with srk := 0, tpm_ctx := 0 },
            [.closeObject s2.srk, .closeContext s2.tpm_ctx])
        | .success =>
          let s3 : TpmCtxSt := { s2 with srk_policy := chip.policyHandle }
          let ev : ChipEvent := match srk_password with
            | some _ => .srkSecretPlain
            | none => .srkSecretWellKnown
          match chip.setSecret with
          | .error e =>
            (.error (tss_err e),
              { s3 with srk_policy := 0, srk := 0, tpm_ctx := 0 },
              [ev, .closeObject s3.srk_policy, .closeObject s3.srk,
               .closeContext s3.tpm_ctx])
          | .success => (.ok (), s3, [ev])

/-- Embedding of `tpm_close_session` (lib/tpm.c lines 217-225): close the
SRK policy, the SRK and the chip context, in that order, zeroing the three
handles. -/
def tpm_close_session (s : TpmCtxSt) : TpmCtxSt × List ChipEvent :=
  ({ s with srk_policy := 0, srk := 0, tpm_ctx := 0 },
   [.closeObject s.srk_policy, .closeObject s.srk, .closeContext s.tpm_ctx])

/-- Key-size selection in `gnutls_tpm_privkey_generate` (lib/tpm.c lines
961-972): the requested bit size selects one of the `TSS_KEY_SIZE_*` flags,
represented here by the bit size the flag denotes. -/
def generate_key_size (bits : Nat) : Nat :=
  if bits ≤ 512 then 512
  else if bits ≤ 1024 then 1024
  else if bits ≤ 2048 then 2048
  else if bits ≤ 4096 then 4096
  else if bits ≤ 8192 then 8192
  else 16384

/-- The C `TSS_UUID` struct: a 32-bit field, two 16-bit fields, two byte
fields and a 6-byte array. Multi-byte fields carry their integer value; the
byte-order question of how `memcpy` fills them from raw bytes is made
explicit in `bytesToUuid`/`uuidToBytes` below. -/
structure TSS_UUID where
  ulTimeLow : Nat
  usTimeMid : Nat
  usTimeHigh : Nat
  bClockSeqHigh : Nat
  bClockSeqLow : Nat
  rgbNode : List Nat
deriving DecidableEq, Repr

/-- Big-endian (most significant byte first) reading of a byte list as an
integer. -/
def beRead (bs : List Nat) : Nat :=
  bs.foldl (fun a b => a * 256 + b) 0

/-- Integer value obtained by `memcpy`ing a byte list into a C unsigned
field: big-endian hosts read the bytes most-significant-first (`le = false`),
little-endian hosts least-significant-first (`le = true`). -/
def readWord (le : Bool) (bs : List Nat) : Nat :=
  beRead (if le then bs.reverse else bs)

/-- The fixed byte-group layout used by both `randomize_uuid` and
`decode_tpmkey_url` to `memcpy` 16 raw bytes into a `TSS_UUID`
(4-2-2-1-1-6), parametrised by the host byte order `le`. -/
def bytesToUuid (le : Bool) (b : List Nat) : TSS_UUID :=
  { ulTimeLow := readWord le (b.take 4)
  , usTimeMid := readWord le ((b.drop 4).take 2)
  , usTimeHigh := readWord le ((b.drop 6).take 2)
  , bClockSeqHigh := b.getD 8 0
  , bClockSeqLow := b.getD 9 0
  , rgbNode := (b.drop 10).take 6 }

/-- The two memory-order bytes of a 16-bit field holding `n` on a
big-endian host (most significant byte first). -/
def wordBytes2 (n : Nat) : List Nat :=
  [n / 256 % 256, n % 256]

/-- The four memory-order bytes of a 32-bit field holding `n` on a
big-endian host (most significant byte first). -/
def wordBytes4 (n : Nat) : List Nat :=
  [n / 16777216 % 256, n / 65536 % 256, n / 256 % 256, n % 256]

/-- The 16 raw bytes a `TSS_UUID` occupies in memory, inverse of
`bytesToUuid` for in-range fields. -/
def uuidToBytes (le : Bool) (u : TSS_UUID) : List Nat :=
  (if le then (wordBytes4 u.ulTimeLow).reverse else wordBytes4 u.ulTimeLow)
  ++ (if le then (wordBytes2 u.usTimeMid).reverse else wordBytes2 u.usTimeMid)
  ++ (if le then (wordBytes2 u.usTimeHigh).reverse else wordBytes2 u.usTimeHigh)
  ++ [u.bClockSeqHigh, u.bClockSeqLow]
  ++ u.rgbNode

/-- Lowercase hex digit for a value below 16, as printed by `%x`. -/
def hexDigit (n : Nat) : Char :=
  if n < 10 then Char.ofNat (48 + n) else Char.ofNat (87 + n)

/-- The two lowercase hex digits `%.2x` prints for a byte. -/
def hex2 (n : Nat) : List Char :=
  [hexDigit (n / 16 % 16), hexDigit (n % 16)]

/-- The four lowercase hex digits `%.4x` prints for a 16-bit value. -/
def hex4 (n : Nat) : List Char :=
  hex2 (n / 256) ++ hex2 (n % 256)

/-- The eight lowercase hex digits `%.8x` prints for a 32-bit value. -/
def hex8 (n : Nat) : List Char :=
  hex4 (n / 65536) ++ hex4 (n % 65536)

/-- The part of the encoded locator after `tpmkey:uuid=`: the five
hyphen-separated field groups of the `snprintf` format
`%.8x-%.4x-%.4x-%.2x%.2x-%.2x%.2x%.2x%.2x%.2x%.2x`. -/
def uuidBody (u : TSS_UUID) : List Char :=
  hex8 u.ulTimeLow ++ ['-'] ++ hex4 u.usTimeMid ++ ['-'] ++ hex4 u.usTimeHigh
  ++ ['-'] ++ hex2 u.bClockSeqHigh ++ hex2 u.bClockSeqLow ++ ['-']
  ++ (u.rgbNode.map hex2).flatten

/-- Embedding of `encode_tpmkey_url` (lib/tpm.c lines 502-519): formats the
UUID fields into the fixed `tpmkey:uuid=` locator string (the 68-byte
buffer always suffices: the output is 48 characters). -/
def encode_tpmkey_url (u : TSS_UUID) : List Char :=
  "tpmkey:uuid=".toList ++ uuidBody u

/-- Embedding of C `strstr` followed by skipping the needle: returns the
suffix of `hay` that follows the first occurrence of `needle`, or `none`
when `needle` does not occur. -/
def afterSub (needle : List Char) : List Char → Option (List Char)
  | [] => bif needle.isPrefixOf ([] : List Char) then some [] else none
  | c :: rest =>
    bif needle.isPrefixOf (c :: rest) then some ((c :: rest).drop needle.length)
    else afterSub needle rest

/-- The `file=` search key of the locator scheme. -/
def fileKey : List Char := "file=".toList

/-- The `uuid=` search key of the locator scheme. -/
def uuidKey : List Char := "uuid=".toList

/-- The `tpmkey:` scheme token of the locator scheme. -/
def schemeKey : List Char := "tpmkey:".toList

/-- The alphanumeric-collection loop of `decode_tpmkey_url`: walk the
characters after `uuid=`, keeping only alphanumerics, stopping once `cap`
characters have been kept. -/
def collectAlnum : Nat → List Char → List Char
  | _, [] => []
  | cap, c :: rest =>
    if cap = 0 then []
    else if c.isAlphanum then c :: collectAlnum (cap - 1) rest
    else collectAlnum cap rest

/-- Value of a hex digit character, `none` for a non-hex-digit. -/
def hexDigitVal (c : Char) : Option Nat :=
  if '0' ≤ c ∧ c ≤ '9' then some (c.toNat - 48)
  else if 'a' ≤ c ∧ c ≤ 'f' then some (c.toNat - 87)
  else if 'A' ≤ c ∧ c ≤ 'F' then some (c.toNat - 55)
  else none

/-- Hex-decode a character list two digits per byte; fails on odd length or
any non-hex digit. -/
def hexPairs : List Char → Option (List Nat)
  | [] => some []
  | c1 :: c2 :: rest =>
    match hexDigitVal c1, hexDigitVal c2, hexPairs rest with
    | some h, some l, some bs => some ((h * 16 + l) :: bs)
    | _, _, _ => none
  | _ :: [] => none

/-- Modelled from the spec: `_gnutls_hex2bin` is not part of the src/
subset; per the spec it hex-decodes the collected characters into exactly
16 bytes and fails with a parse error on wrong length or bad digits. -/
def hex2bin16 (cs : List Char) : Option (List Nat) :=
  match hexPairs cs with
  | some bs => if bs.length = 16 then some bs else none
  | none => none

/-- Modelled from the spec: `_gnutls_buffer_unescape` is not part of the
src/ subset; per the spec the `file=` path is backslash-unescaped. -/
def unescapeChars : List Char → List Char
  | [] => []
  | c :: rest =>
    if c = Char.ofNat 92 then
      match rest with
      | [] => [c]
      | d :: rest2 => d :: unescapeChars rest2
    else c :: unescapeChars rest

/-- Embedding of `unescape_string` (lib/tpm.c lines 435-479): take the
input up to the terminator (or all of it) and unescape it. -/
def unescape_string (term : Char) (input : List Char) : List Char :=
  unescapeChars (input.takeWhile (fun c => c ≠ term))

/-- The C `struct tpmkey_url_st`: an owned filename (nullable pointer
modelled as `Option`), the UUID fields, and the `uuid_set` flag. -/
structure TpmkeyUrlSt where
  filename : Option (List Char)
  uuid : TSS_UUID
  uuid_set : Bool
deriving DecidableEq, Repr

/-- The all-zero `tpmkey_url_st` produced by `memset(s, 0, sizeof(*s))`. -/
def clearedUrlSt : TpmkeyUrlSt :=
  { filename := none
  , uuid := { ulTimeLow := 0, usTimeMid := 0, usTimeHigh := 0
            , bClockSeqHigh := 0, bClockSeqLow := 0
            , rgbNode := [0, 0, 0, 0, 0, 0] }
  , uuid_set := false }

/-- Embedding of `decode_tpmkey_url` (lib/tpm.c lines 521-596): fail unless
the string contains the `tpmkey:` scheme token; if it contains `file=`,
store the unescaped path up to `;` as the filename; else if it contains
`uuid=`, collect up to 32 alphanumerics, hex-decode them to 16 bytes and
fill the UUID fields (via the host-byte-order `memcpy`, parameter `le`);
else fail with the parse error. Allocation failures are not modelled. -/
def decode_tpmkey_url (le : Bool) (url : List Char) :
    Except GErr TpmkeyUrlSt :=
  match afterSub schemeKey url with
  | none => .error .parsingError
  | some _ =>
    match afterSub fileKey url with
    | some p =>
      .ok { clearedUrlSt with filename := some (unescape_string ';' p) }
    | none =>
      match afterSub uuidKey url with
      | some p =>
        match hex2bin16 (collectAlnum 32 p) with
        | some raw =>
          .ok { clearedUrlSt with uuid := bytesToUuid le raw, uuid_set := true }
        | none => .error .parsingError
      | none => .error .parsingError

/-- Result of running C code that may hit undefined behaviour: either the
function returns a value, or (`undef`) an operation with no defined
semantics, such as `strlen(NULL)`, was reached. -/
inductive CResult (α : Type) where
  | undef
  | ret (a : α)
deriving DecidableEq, Repr

deriving instance DecidableEq for Except

/-- Oracle for the calls made by `import_tpm_key` beyond the session calls:
outcomes of the external PEM and octet-string decoders, of the chip loads,
of the abstract-key registration, of the trial sign, and of the
policy-creation calls, plus the handles the chip hands out. -/
structure ImportChip where
  session : SessionChip
  pemDecode : Option GErr
  octetDecode : Option GErr
  loadBlob : TssResult
  loadUuid : TssResult
  keyHandle : Nat
  importExt2 : Option GErr
  trialSign : Except GErr Unit
  createPolicy : TssResult
  keyPolicyHandle : Nat
  assignPolicy : TssResult
  setKeySecret : TssResult
deriving DecidableEq, Repr

/-- The `Tspi_Policy_SetSecret` step of the authorization-retry branch
(lib/tpm.c lines 355-366) and the success return: C takes
`strlen(key_password)` unconditionally, so a missing key password is
undefined behaviour; a chip failure surfaces the key-password error after
unwinding through `out_key_policy`. -/
def import_set_secret (s : TpmCtxSt) (key_password : Option String)
    (chip : ImportChip) (ev : List ChipEvent) :
    CResult (Except GErr Unit × TpmCtxSt × List ChipEvent) :=
  match key_password with
  | none => .undef
  | some _ =>
    match chip.setKeySecret with
    | .error _ =>
      let s2 : TpmCtxSt := { s with tpm_key_policy := 0, tpm_key := 0 }
      let c := tpm_close_session s2
      .ret (.error .tpmKeyPasswordError, c.1,
        ev ++ [.policySetSecret s.tpm_key_policy,
               .closeObject s.tpm_key_policy, .closeObject s.tpm_key] ++ c.2)
    | .success =>
      .ret (.ok (), s, ev ++ [.policySetSecret s.tpm_key_policy])

/-- The tail of `import_tpm_key` after a key handle was loaded (lib/tpm.c
lines 315-375): register the signing delegate, run the trial sign, and on
`insufficientCredentials` lazily create and bind a key policy (guarded by
the `tpm_key_policy` field being null) before setting its secret. -/
def import_after_load (s : TpmCtxSt) (key_password : Option String)
    (chip : ImportChip) (ev : List ChipEvent) :
    CResult (Except GErr Unit × TpmCtxSt × List ChipEvent) :=
  match chip.importExt2 with
  | some e =>
    let c := tpm_close_session s
    .ret (.error e, c.1, ev ++ c.2)
  | none =>
    match chip.trialSign with
    | .ok _ => .ret (.ok (), s, ev)
    | .error ge =>
      if ge = GErr.insufficientCredentials then
        if s.tpm_key_policy = 0 then
          match chip.createPolicy with
          | .error e =>
            let s1 : TpmCtxSt := { s with tpm_key := 0 }
            let c := tpm_close_session s1
            .ret (.error (tss_err e), c.1,
              ev ++ [.closeObject s.tpm_key] ++ c.2)
          | .success =>
            let s1 : TpmCtxSt := { s with tpm_key_policy := chip.keyPolicyHandle }
            match chip.assignPolicy with
            | .error e =>
              let s2 : TpmCtxSt := { s1 with tpm_key_policy := 0, tpm_key := 0 }
              let c := tpm_close_session s2
              .ret (.error (tss_err e), c.1,
                ev ++ [.createPolicyObj, .closeObject s1.tpm_key_policy,
                       .closeObject s1.tpm_key] ++ c.2)
            | .success =>
              import_set_secret s1 key_password chip
                (ev ++ [.createPolicyObj, .assignPolicy])
        else import_set_secret s key_password chip ev
      else
        let c := tpm_close_session s
        .ret (.error ge, c.1, ev ++ c.2)

/-- Embedding of `import_tpm_key` (lib/tpm.c lines 227-389). `sInit` is the
arbitrary prior content of the `gnutls_malloc`-allocated `tpm_ctx_st`
(`gnutls_malloc`, outside the src/ subset, is plain non-zeroing
allocation), `fdata`/`uuid` model the two nullable load sources, and
`chip` supplies the outcome of every external call. -/
def import_tpm_key (sInit : TpmCtxSt) (fdata uuid : Option Unit)
    (srk_password key_password : Option String) (chip : ImportChip) :
    CResult (Except GErr Unit × TpmCtxSt × List ChipEvent) :=
  match tpm_open_session sInit srk_password chip.session with
  | (.error e, s1, ev1) => .ret (.error e, s1, ev1)
  | (.ok _, s1, ev1) =>
    match fdata with
    | some _ =>
      match chip.pemDecode with
      | some e =>
        let c := tpm_close_session s1
        .ret (.error e, c.1, ev1 ++ c.2)
      | none =>
        match chip.octetDecode with
        | some e =>
          let c := tpm_close_session s1
          .ret (.error e, c.1, ev1 ++ c.2)
        | none =>
          match chip.loadBlob with
          | .error e =>
            let lg := if srk_password.isSome then [ChipEvent.logLoadBlobFail]
              else []
            let c := tpm_close_session s1
            .ret (.error (tss_err e), c.1, ev1 ++ lg ++ c.2)
          | .success =>
            import_after_load { s1 with tpm_key := chip.keyHandle }
              key_password chip ev1
    | none =>
      match uuid with
      | some _ =>
        match chip.loadUuid with
        | .error e =>
          let c := tpm_close_session s1
          .ret (.error (tss_err e), c.1, ev1 ++ c.2)
        | .success =>
          import_after_load { s1 with tpm_key := chip.keyHandle }
            key_password chip ev1
      | none =>
        let c := tpm_close_session s1
        .ret (.error .invalidRequest, c.1, ev1 ++ c.2)

/-- Whether an `import_tpm_key` run returned success (a registered key). -/
def importSucceeded (r : CResult (Except GErr Unit × TpmCtxSt × List ChipEvent)) :
    Bool :=
  match r with
  | .ret (.ok _, _, _) => true
  | _ => false

/-- A `SessionChip` whose five calls all succeed, handing out handles
1 (context), 2 (SRK) and 3 (SRK policy); used by concrete runs below. -/
def sessionAllOk : SessionChip :=
  { ctxHandle := 1, srkHandle := 2, policyHandle := 3
  , createCtx := .success, connect := .success, loadSrk := .success
  , getPolicy := .success, setSecret := .success }

/-- All five session calls succeed. -/
def sessionOk (c : SessionChip) : Prop :=
  c.createCtx = .success ∧ c.connect = .success ∧ c.loadSrk = .success ∧
  c.getPolicy = .success ∧ c.setSecret = .success

/-- An `ImportChip` for a run where every external call succeeds except
that loading the wrapped blob into the chip fails; used for the C9
counterexample run. -/
def importChipLoadFail : ImportChip :=
  { session := sessionAllOk, pemDecode := none, octetDecode := none
  , loadBlob := .error (.other 9), loadUuid := .success, keyHandle := 4
  , importExt2 := none, trialSign := .ok (), createPolicy := .success
  , keyPolicyHandle := 6, assignPolicy := .success, setKeySecret := .success }

/-- An `ImportChip` for a run where the trial sign reports missing
credentials and every chip call succeeds; used for the C4 run on a
non-zeroed allocation. -/
def importChipAuthRetry : ImportChip :=
  { session := sessionAllOk, pemDecode := none, octetDecode := none
  , loadBlob := .success, loadUuid := .success, keyHandle := 4
  , importExt2 := none, trialSign := .error .insufficientCredentials
  , createPolicy := .success, keyPolicyHandle := 6, assignPolicy := .success
  , setKeySecret := .success }

/-- The locator string of the C6 counterexample: a `uuid=` value of 40 hex
digits (20 bytes worth). -/
def urlOverlongUuid : List Char :=
  "tpmkey:uuid=0000000000000000000000000000000000000000".toList

/-!
Theorems. Claims C1-C10 of the specification are settled below; each
claim's theorem carries the claim id in its doc comment. Supporting lemmas
come first.
-/

/-- C5: key generation quantizes the requested bit size upward to the
nearest element of 512/1024/2048/4096/8192/16384 (first list element at
least as large as the request, defaulting to 16384 for requests above
16384); in particular 1, 512, 513, 2048, 20000 quantize to 512, 512, 1024,
2048, 16384. -/
theorem generate_bits_quantization :
    (∀ bits : Nat, generate_key_size bits =
      (([512, 1024, 2048, 4096, 8192, 16384] : List Nat).find?
        (fun s => bits ≤ s)).getD 16384) ∧
    generate_key_size 1 = 512 ∧ generate_key_size 512 = 512 ∧
    generate_key_size 513 = 1024 ∧ generate_key_size 2048 = 2048 ∧
    generate_key_size 20000 = 16384 := by
  refine ⟨fun bits => ?_, by decide, by decide, by decide, by decide, by decide⟩
  unfold generate_key_size
  by_cases h1 : bits ≤ 512 <;> by_cases h2 : bits ≤ 1024 <;>
    by_cases h3 : bits ≤ 2048 <;> by_cases h4 : bits ≤ 4096 <;>
    by_cases h5 : bits ≤ 8192 <;> by_cases h6 : bits ≤ 16384 <;>
    first
      | (exfalso; omega)
      | simp [List.find?, h1, h2, h3, h4, h5, h6]

/-- C1 (counterexample): with a key policy already present
(`tpm_key_policy = 7`) and the chip still reporting an authorization
failure, `tpm_sign_fn` returns `insufficientCredentials`, not the generic
sign failure the claim requires. -/
theorem sign_authfail_with_policy_counterexample :
    (⟨1, 4, 7, 2, 3⟩ : TpmCtxSt).tpm_key_policy ≠ 0 ∧
    (tpm_sign_fn ⟨1, 4, 7, 2, 3⟩
        ⟨.success, .success, .error .authFail⟩).1 =
      .error .insufficientCredentials ∧
    (tpm_sign_fn ⟨1, 4, 7, 2, 3⟩
        ⟨.success, .success, .error .authFail⟩).1 ≠
      .error .pkSignFailed := by
  decide

/-- C1 (amended): `tpm_sign_fn` returns `insufficientCredentials` exactly
when the chip's sign call reports the authorization-failure code (and the
hash creation and value-setting calls succeeded), independently of whether
a key policy exists; the existing-policy condition gates only the debug
log line. -/
theorem sign_insufficient_credentials_iff_authfail (s : TpmCtxSt)
    (chip : SignChip) :
    ((tpm_sign_fn s chip).1 = .error .insufficientCredentials ↔
      chip.createHash = .success ∧ chip.setValue = .success ∧
      chip.sign = .error .authFail) ∧
    (∀ s' : TpmCtxSt, (tpm_sign_fn s chip).1 = (tpm_sign_fn s' chip).1) := by
  constructor
  · cases hch : chip.createHash with
    | error e => simp [tpm_sign_fn, hch]
    | success =>
      cases hsv : chip.setValue with
      | error e => simp [tpm_sign_fn, hch, hsv]
      | success =>
        cases hsg : chip.sign with
        | success => simp [tpm_sign_fn, hch, hsv, hsg]
        | error e =>
          by_cases he : e = TssCode.authFail <;>
            simp [tpm_sign_fn, hch, hsv, hsg, he]
  · intro s'
    cases hch : chip.createHash with
    | error e => simp [tpm_sign_fn, hch]
    | success =>
      cases hsv : chip.setValue with
      | error e => simp [tpm_sign_fn, hch, hsv]
      | success =>
        cases hsg : chip.sign with
        | success => simp [tpm_sign_fn, hch, hsv, hsg]
        | error e =>
          by_cases he : e = TssCode.authFail <;>
            simp [tpm_sign_fn, hch, hsv, hsg, he]

/-- C3: in every run of `tpm_sign_fn` the transient chip hash object is
closed as many times as it is created — in particular, once it has been
successfully created it is destroyed before the function returns, on the
success path and on both failure paths. -/
theorem sign_hash_object_balanced (s : TpmCtxSt) (chip : SignChip) :
    ((tpm_sign_fn s chip).2.count ChipEvent.closeHashObj) =
      ((tpm_sign_fn s chip).2.count ChipEvent.createHashObj) := by
  cases hch : chip.createHash with
  | error e => simp [tpm_sign_fn, hch]
  | success =>
    cases hsv : chip.setValue with
    | error e => simp [tpm_sign_fn, hch, hsv]
    | success =>
      cases hsg : chip.sign with
      | success => simp [tpm_sign_fn, hch, hsv, hsg]
      | error e =>
        by_cases hpol : s.tpm_key_policy = 0 <;>
          by_cases he : e = TssCode.authFail <;>
          simp [tpm_sign_fn, hch, hsv, hsg, hpol, he, List.count_append,
            List.count_cons]

/-- When all five chip calls succeed, `tpm_open_session` returns success,
stores the three handles the chip handed out, and its only chip-visible
action is setting the SRK secret (plain mode with a password, well-known
mode without). -/
theorem open_session_ok (s : TpmCtxSt) (pw : Option String)
    (chip : SessionChip) (h : sessionOk chip) :
    tpm_open_session s pw chip =
      (.ok (),
       { s with tpm_ctx := chip.ctxHandle, srk := chip.srkHandle, srk_policy := chip.policyHandle },
       [match pw with
        | some _ => ChipEvent.srkSecretPlain
        | none => ChipEvent.srkSecretWellKnown]) := by
  obtain ⟨h1, h2, h3, h4, h5⟩ := h
  simp [tpm_open_session, h1, h2, h3, h4, h5]

/-- C8: after a successful `tpm_open_session`, the session state holds the
three chip handles; `tpm_close_session` zeroes all three, emitting the
close operations in the order SRK policy, SRK, context; and a second
`tpm_close_session` on the already-closed state is a no-op on the state
(it re-closes the zero/null handles, which is safe). -/
theorem session_close_after_open (s0 : TpmCtxSt) (pw : Option String)
    (chip : SessionChip)
    (h : (tpm_open_session s0 pw chip).1 = .ok ()) :
    ((tpm_open_session s0 pw chip).2.1.tpm_ctx = chip.ctxHandle ∧
     (tpm_open_session s0 pw chip).2.1.srk = chip.srkHandle ∧
     (tpm_open_session s0 pw chip).2.1.srk_policy = chip.policyHandle) ∧
    (tpm_close_session (tpm_open_session s0 pw chip).2.1).1.tpm_ctx = 0 ∧
    (tpm_close_session (tpm_open_session s0 pw chip).2.1).1.srk = 0 ∧
    (tpm_close_session (tpm_open_session s0 pw chip).2.1).1.srk_policy = 0 ∧
    (tpm_close_session (tpm_open_session s0 pw chip).2.1).2 =
      [ChipEvent.closeObject (tpm_open_session s0 pw chip).2.1.srk_policy,
       ChipEvent.closeObject (tpm_open_session s0 pw chip).2.1.srk,
       ChipEvent.closeContext (tpm_open_session s0 pw chip).2.1.tpm_ctx] ∧
    tpm_close_session (tpm_close_session (tpm_open_session s0 pw chip).2.1).1 =
      ((tpm_close_session (tpm_open_session s0 pw chip).2.1).1,
       [ChipEvent.closeObject 0, ChipEvent.closeObject 0,
        ChipEvent.closeContext 0]) := by
  have hok : sessionOk chip := by
    cases h1 : chip.createCtx with
    | error e => simp [tpm_open_session, h1] at h
    | success =>
      cases h2 : chip.connect with
      | error e => simp [tpm_open_session, h1, h2] at h
      | success =>
        cases h3 : chip.loadSrk with
        | error e => simp [tpm_open_session, h1, h2, h3] at h
        | success =>
          cases h4 : chip.getPolicy with
          | error e => simp [tpm_open_session, h1, h2, h3, h4] at h
          | success =>
            cases h5 : chip.setSecret with
            | error e => simp [tpm_open_session, h1, h2, h3, h4, h5] at h
            | success => exact ⟨h1, h2, h3, h4, h5⟩
  rw [open_session_ok s0 pw chip hok]
  simp [tpm_close_session]

/-- Witness for C8: a concrete successful open followed by close, with
handles 1, 2, 3 handed out and closed. -/
theorem session_close_after_open_witness :
    (tpm_open_session ⟨9, 9, 9, 9, 9⟩ none sessionAllOk).1 = .ok () ∧
    (tpm_close_session
        (tpm_open_session ⟨9, 9, 9, 9, 9⟩ none sessionAllOk).2.1).1.tpm_ctx = 0 ∧
    (tpm_close_session
        (tpm_open_session ⟨9, 9, 9, 9, 9⟩ none sessionAllOk).2.1).1.srk = 0 ∧
    (tpm_close_session
        (tpm_open_session ⟨9, 9, 9, 9, 9⟩ none sessionAllOk).2.1).1.srk_policy = 0 := by
  have h : (tpm_open_session ⟨9, 9, 9, 9, 9⟩ none sessionAllOk).1 = .ok () := by
    decide
  have hmain := session_close_after_open ⟨9, 9, 9, 9, 9⟩ none sessionAllOk h
  exact ⟨h, hmain.2.1, hmain.2.2.1, hmain.2.2.2.1⟩

/-- C9 (counterexample): a blob import with no SRK password whose chip-side
blob load fails does not continue past the failure — it hard-fails with the
mapped chip error, tearing the session down, and does not even emit the
load-failure log line (the log is gated on a password being present). -/
theorem blob_load_failure_counterexample :
    importSucceeded
      (import_tpm_key ⟨0, 0, 0, 0, 0⟩ (some ()) none none none importChipLoadFail) = false ∧
    import_tpm_key ⟨0, 0, 0, 0, 0⟩ (some ()) none none none importChipLoadFail =
      .ret (.error .tpmError, ⟨0, 0, 0, 0, 0⟩,
        [.srkSecretWellKnown, .closeObject 3, .closeObject 2, .closeContext 1]) ∧
    ChipEvent.logLoadBlobFail ∉
      ([.srkSecretWellKnown, .closeObject 3, .closeObject 2,
        .closeContext 1] : List ChipEvent) := by
  decide

/-- C9 (amended): when the chip-side blob load fails during import, it
hard-fails with the mapped chip error whether or not an SRK password
was supplied; the SRK-password presence gates only the debug log line
(which is emitted exactly when a password was given). -/
theorem blob_load_failure_always_fails (sInit : TpmCtxSt) (u : Option Unit)
    (pw kpw : Option String) (chip : ImportChip) (e : TssCode)
    (hs : sessionOk chip.session) (hpem : chip.pemDecode = none)
    (hoct : chip.octetDecode = none) (hload : chip.loadBlob = .error e) :
    ∃ s' ev, import_tpm_key sInit (some ()) u pw kpw chip =
        .ret (.error (tss_err e), s', ev) ∧
      (ChipEvent.logLoadBlobFail ∈ ev ↔ pw.isSome = true) := by
  rcases pw with _ | p
  · refine ⟨{ sInit with tpm_ctx := 0, srk := 0, srk_policy := 0 },
      [.srkSecretWellKnown, .closeObject chip.session.policyHandle,
       .closeObject chip.session.srkHandle, .closeContext chip.session.ctxHandle],
      ?_, by simp⟩
    simp [import_tpm_key, open_session_ok _ _ _ hs, hpem, hoct, hload,
      tpm_close_session]
  · refine ⟨{ sInit with tpm_ctx := 0, srk := 0, srk_policy := 0 },
      [.srkSecretPlain, .logLoadBlobFail, .closeObject chip.session.policyHandle,
       .closeObject chip.session.srkHandle, .closeContext chip.session.ctxHandle],
      ?_, by simp⟩
    simp [import_tpm_key, open_session_ok _ _ _ hs, hpem, hoct, hload,
      tpm_close_session]

/-- Witness for C9's amended theorem: a concrete blob-load failure with no
password, reaching the hard failure with no log event. -/
theorem blob_load_failure_always_fails_witness :
    ∃ s' ev, import_tpm_key ⟨0, 0, 0, 0, 0⟩ (some ()) none none none importChipLoadFail =
        .ret (.error (tss_err (.other 9)), s', ev) ∧
      (ChipEvent.logLoadBlobFail ∈ ev ↔ (none : Option String).isSome = true) :=
  blob_load_failure_always_fails ⟨0, 0, 0, 0, 0⟩ none none none
    importChipLoadFail (.other 9) ⟨rfl, rfl, rfl, rfl, rfl⟩ rfl rfl rfl

/-- C10: when the trial sign during private-key import reports missing
credentials and the authorization-retry branch runs to the secret-setting
step (either a junk/existing policy skips creation, or creation and binding
succeed), a null key password makes the C code take `strlen(NULL)` —
undefined behaviour — so the run is undefined and in particular never
reaches the key-password error return. -/
theorem null_key_password_undefined (sInit : TpmCtxSt) (pw : Option String)
    (chip : ImportChip) (hs : sessionOk chip.session)
    (hload : chip.loadUuid = .success) (hext : chip.importExt2 = none)
    (htrial : chip.trialSign = .error .insufficientCredentials)
    (hpol : sInit.tpm_key_policy ≠ 0 ∨
      (chip.createPolicy = .success ∧ chip.assignPolicy = .success)) :
    import_tpm_key sInit none (some ()) pw none chip = .undef := by
  simp only [import_tpm_key, open_session_ok _ _ _ hs, hload, hext]
  simp only [import_after_load, hext, htrial]
  by_cases hz : sInit.tpm_key_policy = 0
  · rcases hpol with hne | ⟨hc, ha⟩
    · exact absurd hz hne
    · simp [hz, hc, ha, import_set_secret]
  · simp [hz, import_set_secret]

/-- Witness for C10: a concrete import of a password-protected key with no
key password, ending in undefined behaviour. -/
theorem null_key_password_undefined_witness :
    import_tpm_key ⟨0, 0, 0, 0, 0⟩ none (some ()) none none importChipAuthRetry =
      .undef :=
  null_key_password_undefined ⟨0, 0, 0, 0, 0⟩ none importChipAuthRetry
    ⟨rfl, rfl, rfl, rfl, rfl⟩ rfl rfl rfl (Or.inr ⟨rfl, rfl⟩)

/-- C4 (code evaluated at the failing input): `import_tpm_key` allocates
its `tpm_ctx_st` with non-zeroing `gnutls_malloc`; with junk value 5 left
in `tpm_key_policy`, the authorization-retry branch treats the junk as an
existing policy — it never creates a policy object and sets the key secret
on the junk handle 5 — so the field did not start absent and the
absent-to-present transition never happened. -/
theorem key_policy_junk_skips_creation :
    import_tpm_key ⟨0, 0, 5, 0, 0⟩ none (some ()) none (some "pw") importChipAuthRetry =
      .ret (.ok (), ⟨1, 4, 5, 2, 3⟩,
        [.srkSecretWellKnown, .policySetSecret 5]) ∧
    ChipEvent.createPolicyObj ∉
      ([.srkSecretWellKnown, .policySetSecret 5] : List ChipEvent) := by
  decide

/-- C7: whenever `decode_tpmkey_url` succeeds, exactly one of the filename
(non-null) and the `uuid_set` flag holds — never both, never neither. -/
theorem decode_exactly_one_of (le : Bool) (url : List Char) (r : TpmkeyUrlSt)
    (h : decode_tpmkey_url le url = .ok r) :
    (r.filename.isSome = true ∧ r.uuid_set = false) ∨
    (r.filename = none ∧ r.uuid_set = true) := by
  unfold decode_tpmkey_url at h
  split at h
  · exact absurd h (by simp)
  · split at h
    · simp only [Except.ok.injEq] at h
      subst h
      left
      simp [clearedUrlSt]
    · split at h
      · split at h
        · simp only [Except.ok.injEq] at h
          subst h
          right
          simp [clearedUrlSt]
        · exact absurd h (by simp)
      · exact absurd h (by simp)

/-- Witness for C7: the successful decode of a concrete uuid locator. -/
theorem decode_exactly_one_of_witness :
    ((⟨none, ⟨0, 0, 0, 0, 0, [0, 0, 0, 0, 0, 0]⟩, true⟩ : TpmkeyUrlSt).filename.isSome = true ∧
     (⟨none, ⟨0, 0, 0, 0, 0, [0, 0, 0, 0, 0, 0]⟩, true⟩ : TpmkeyUrlSt).uuid_set = false) ∨
    ((⟨none, ⟨0, 0, 0, 0, 0, [0, 0, 0, 0, 0, 0]⟩, true⟩ : TpmkeyUrlSt).filename = none ∧
     (⟨none, ⟨0, 0, 0, 0, 0, [0, 0, 0, 0, 0, 0]⟩, true⟩ : TpmkeyUrlSt).uuid_set = true) :=
  decode_exactly_one_of false
    "tpmkey:uuid=00000000000000000000000000000000".toList
    ⟨none, ⟨0, 0, 0, 0, 0, [0, 0, 0, 0, 0, 0]⟩, true⟩
    (by decide)

/-- C6 (counterexample): a `uuid=` value of 40 hex digits decodes
successfully — its alphanumeric characters hex-decode to 20 bytes, not 16,
yet the code truncates the collected characters at 32 and accepts the
input, contradicting the claim that every such input is rejected. -/
theorem decode_uuid_truncation_counterexample :
    decode_tpmkey_url false urlOverlongUuid =
      .ok ⟨none, ⟨0, 0, 0, 0, 0, [0, 0, 0, 0, 0, 0]⟩, true⟩ ∧
    (((afterSub uuidKey urlOverlongUuid).getD []).filter Char.isAlphanum).length = 40 ∧
    (hexPairs (((afterSub uuidKey urlOverlongUuid).getD []).filter
        Char.isAlphanum)).map List.length = some 20 := by
  decide

/-- C6 (amended): `decode_tpmkey_url` fails with the parse error when the
string lacks the `tpmkey:` token; when it has the token but neither `file=`
nor `uuid=`; and when it has a `uuid=` value whose collected alphanumeric
characters — truncated at 32 — do not hex-decode to exactly 16 bytes. -/
theorem decode_reject_parsing_error (le : Bool) (u1 u2 u3 p : List Char) :
    (afterSub schemeKey u1 = none →
      decode_tpmkey_url le u1 = .error .parsingError) ∧
    ((afterSub schemeKey u2).isSome = true → afterSub fileKey u2 = none →
      afterSub uuidKey u2 = none →
      decode_tpmkey_url le u2 = .error .parsingError) ∧
    ((afterSub schemeKey u3).isSome = true → afterSub fileKey u3 = none →
      afterSub uuidKey u3 = some p → hex2bin16 (collectAlnum 32 p) = none →
      decode_tpmkey_url le u3 = .error .parsingError) := by
  refine ⟨fun h => ?_, fun hs hf hu => ?_, fun hs hf hu hx => ?_⟩
  · simp [decode_tpmkey_url, h]
  · rcases ho : afterSub schemeKey u2 with _ | q
    · rw [ho] at hs
      exact absurd hs (by simp)
    · simp [decode_tpmkey_url, ho, hf, hu]
  · rcases ho : afterSub schemeKey u3 with _ | q
    · rw [ho] at hs
      exact absurd hs (by simp)
    · simp [decode_tpmkey_url, ho, hf, hu, hx]

/-- Witness for C6's amended theorem: the three concrete rejections named
by the specification. -/
theorem decode_reject_parsing_error_witness :
    decode_tpmkey_url false "not-a-tpmkey-url".toList = .error .parsingError ∧
    decode_tpmkey_url false "tpmkey:hello".toList = .error .parsingError ∧
    decode_tpmkey_url false "tpmkey:uuid=zz".toList = .error .parsingError := by
  obtain ⟨t1, t2, t3⟩ := decode_reject_parsing_error false
    "not-a-tpmkey-url".toList "tpmkey:hello".toList "tpmkey:uuid=zz".toList
    ['z', 'z']
  exact ⟨t1 (by decide), t2 (by decide) (by decide) (by decide),
    t3 (by decide) (by decide) (by decide) (by decide)⟩

/-- Facts about the sixteen hex digit characters: they are alphanumeric,
none of them is the letter of `file=` used below, and `hexDigitVal` inverts
`hexDigit`. -/
theorem hexDigit_fin_facts : ∀ n : Fin 16,
    (hexDigit n).isAlphanum = true ∧ hexDigit n ≠ 'l' ∧
    hexDigitVal (hexDigit n) = some (n : Nat) := by
  decide

/-- Alphanumericity of hex digits, at mod-16-guarded arguments. -/
theorem hexDigit_alnum (n : Nat) : (hexDigit (n % 16)).isAlphanum = true := by
  have h := hexDigit_fin_facts ⟨n % 16, Nat.mod_lt _ (by omega)⟩
  exact h.1

/-- Hex digits are not the character `l`, at mod-16-guarded arguments. -/
theorem hexDigit_ne_l (n : Nat) : hexDigit (n % 16) ≠ 'l' := by
  have h := hexDigit_fin_facts ⟨n % 16, Nat.mod_lt _ (by omega)⟩
  exact h.2.1

/-- `hexDigitVal` inverts `hexDigit`, at mod-16-guarded arguments. -/
theorem hexDigitVal_hexDigit (n : Nat) :
    hexDigitVal (hexDigit (n % 16)) = some (n % 16) := by
  have h := hexDigit_fin_facts ⟨n % 16, Nat.mod_lt _ (by omega)⟩
  exact h.2.2

/-- Both characters `%.2x` prints are alphanumeric. -/
theorem hex2_alnum (n : Nat) : ∀ c ∈ hex2 n, c.isAlphanum = true := by
  intro c hc
  simp only [hex2, List.mem_cons, List.not_mem_nil, or_false] at hc
  rcases hc with rfl | rfl
  · exact hexDigit_alnum (n / 16)
  · exact hexDigit_alnum n

/-- The character `l` is not among the characters `%.2x` prints. -/
theorem l_not_mem_hex2 (n : Nat) : 'l' ∉ hex2 n := by
  intro hc
  simp only [hex2, List.mem_cons, List.not_mem_nil, or_false] at hc
  rcases hc with hc | hc
  · exact hexDigit_ne_l (n / 16) hc.symm
  · exact hexDigit_ne_l n hc.symm

/-- Prepending the two digits of a byte to a hex string prepends the byte
to its decoding. -/
theorem hexPairs_hex2_append (a : Nat) (ha : a < 256) (rest : List Char) :
    hexPairs (hex2 a ++ rest) = (hexPairs rest).map (fun bs => a :: bs) := by
  show (match hexDigitVal (hexDigit (a / 16 % 16)), hexDigitVal (hexDigit (a % 16)),
        hexPairs rest with
    | some h, some l, some bs => some ((h * 16 + l) :: bs)
    | _, _, _ => none) = (hexPairs rest).map (fun bs => a :: bs)
  rw [hexDigitVal_hexDigit (a / 16), hexDigitVal_hexDigit a]
  have e2 : a / 16 % 16 * 16 + a % 16 = a := by omega
  cases hp : hexPairs rest with
  | none => rfl
  | some bs => simp [e2]

/-- Characters of a prefix (in the boolean `isPrefixOf` sense) are
characters of the whole list. -/
theorem mem_of_isPrefixOf {a : Char} : ∀ (l1 l2 : List Char),
    l1.isPrefixOf l2 = true → a ∈ l1 → a ∈ l2
  | [], _, _, ha => absurd ha (by simp)
  | c :: t, [], h, _ => by simp [List.isPrefixOf] at h
  | c :: t, d :: u, h, ha => by
    simp only [List.isPrefixOf, Bool.and_eq_true, beq_iff_eq] at h
    rcases List.mem_cons.mp ha with rfl | ha2
    · exact h.1 ▸ List.mem_cons_self _ _
    · exact List.mem_cons_of_mem _ (mem_of_isPrefixOf t u h.2 ha2)

/-- A search step of `afterSub` at a position where the needle does not
match. -/
theorem afterSub_cons_of_not (needle : List Char) (c : Char) (rest : List Char)
    (h : needle.isPrefixOf (c :: rest) = false) :
    afterSub needle (c :: rest) = afterSub needle rest := by
  simp [afterSub, h]

/-- A search step of `afterSub` at a position where the needle matches. -/
theorem afterSub_cons_of_found (needle : List Char) (c : Char) (rest : List Char)
    (h : needle.isPrefixOf (c :: rest) = true) :
    afterSub needle (c :: rest) = some ((c :: rest).drop needle.length) := by
  simp [afterSub, h]

/-- A needle containing a character absent from the haystack never
occurs. -/
theorem afterSub_none_of_not_mem (a : Char) (needle : List Char)
    (ha : a ∈ needle) : ∀ hay : List Char, a ∉ hay →
    afterSub needle hay = none
  | [], _ => by
    cases needle with
    | nil => exact absurd ha (by simp)
    | cons c t => simp [afterSub, List.isPrefixOf]
  | c :: rest, hh => by
    have hp : needle.isPrefixOf (c :: rest) = false := by
      cases hq : needle.isPrefixOf (c :: rest) with
      | false => rfl
      | true => exact absurd (mem_of_isPrefixOf _ _ hq ha) hh
    rw [afterSub_cons_of_not _ _ _ hp]
    exact afterSub_none_of_not_mem a needle ha rest
      (fun h2 => hh (List.mem_cons_of_mem _ h2))

/-- Collecting over a run of alphanumeric characters that fits the
remaining cap keeps them all. -/
theorem collectAlnum_append (xs : List Char) (ys : List Char) (k : Nat)
    (hx : ∀ c ∈ xs, c.isAlphanum = true) (hk : xs.length ≤ k) :
    collectAlnum k (xs ++ ys) = xs ++ collectAlnum (k - xs.length) ys := by
  induction xs generalizing k with
  | nil => simp
  | cons c t ih =>
    have hk0 : ¬(k = 0) := by simp only [List.length_cons] at hk; omega
    have hc : c.isAlphanum = true := hx c (List.mem_cons_self _ _)
    simp only [List.cons_append, collectAlnum, hk0, if_false, hc, if_true,
      List.append_eq]
    rw [ih (k - 1) (fun d hd => hx d (List.mem_cons_of_mem _ hd))
      (by simp only [List.length_cons] at hk; omega)]
    simp only [List.length_cons, List.cons_append]
    rw [show k - 1 - t.length = k - (t.length + 1) from by omega]

/-- Collecting a fully alphanumeric list within the cap keeps it all. -/
theorem collectAlnum_all (xs : List Char) (k : Nat)
    (hx : ∀ c ∈ xs, c.isAlphanum = true) (hk : xs.length ≤ k) :
    collectAlnum k xs = xs := by
  have h := collectAlnum_append xs [] k hx hk
  simpa [collectAlnum] using h

/-- A non-alphanumeric character is skipped while the cap is not
exhausted. -/
theorem collectAlnum_skip (k : Nat) (c : Char) (ys : List Char)
    (hc : c.isAlphanum = false) (hk : ¬(k = 0)) :
    collectAlnum k (c :: ys) = collectAlnum k ys := by
  simp [collectAlnum, hk, hc]

/-- Big-endian reading of two bytes. -/
theorem beRead_two (b0 b1 : Nat) : beRead [b0, b1] = b0 * 256 + b1 := by
  simp [beRead, List.foldl]

/-- Big-endian reading of four bytes. -/
theorem beRead_four (b0 b1 b2 b3 : Nat) :
    beRead [b0, b1, b2, b3] = ((b0 * 256 + b1) * 256 + b2) * 256 + b3 := by
  simp [beRead, List.foldl]

/-- `%.4x` of a big-endian-read two-byte group prints the two bytes'
digits. -/
theorem hex4_two_bytes (b0 b1 : Nat) (h0 : b0 < 256) (h1 : b1 < 256) :
    hex4 (b0 * 256 + b1) = hex2 b0 ++ hex2 b1 := by
  unfold hex4
  rw [show (b0 * 256 + b1) / 256 = b0 from by omega,
    show (b0 * 256 + b1) % 256 = b1 from by omega]

/-- `%.8x` of a big-endian-read four-byte group prints the four bytes'
digits. -/
theorem hex8_four_bytes (b0 b1 b2 b3 : Nat) (h0 : b0 < 256) (h1 : b1 < 256)
    (h2 : b2 < 256) (h3 : b3 < 256) :
    hex8 (((b0 * 256 + b1) * 256 + b2) * 256 + b3) =
      hex2 b0 ++ hex2 b1 ++ (hex2 b2 ++ hex2 b3) := by
  unfold hex8
  rw [show (((b0 * 256 + b1) * 256 + b2) * 256 + b3) / 65536 = b0 * 256 + b1
      from by omega,
    show (((b0 * 256 + b1) * 256 + b2) * 256 + b3) % 65536 = b2 * 256 + b3
      from by omega,
    hex4_two_bytes b0 b1 h0 h1, hex4_two_bytes b2 b3 h2 h3]

/-- The four memory bytes of a big-endian-read four-byte group are those
bytes. -/
theorem wordBytes4_of_bytes (b0 b1 b2 b3 : Nat) (h0 : b0 < 256)
    (h1 : b1 < 256) (h2 : b2 < 256) (h3 : b3 < 256) :
    wordBytes4 (((b0 * 256 + b1) * 256 + b2) * 256 + b3) = [b0, b1, b2, b3] := by
  simp only [wordBytes4, List.cons.injEq, and_true]
  refine ⟨by omega, by omega, by omega, by omega⟩

/-- The two memory bytes of a big-endian-read two-byte group are those
bytes. -/
theorem wordBytes2_of_bytes (b0 b1 : Nat) (h0 : b0 < 256) (h1 : b1 < 256) :
    wordBytes2 (b0 * 256 + b1) = [b0, b1] := by
  simp only [wordBytes2, List.cons.injEq, and_true]
  refine ⟨by omega, by omega⟩

/-- The character `l` does not occur among the digits of `%.4x`. -/
theorem l_not_mem_hex4 (n : Nat) : 'l' ∉ hex4 n := by
  intro h
  rcases List.mem_append.mp h with h | h
  · exact l_not_mem_hex2 _ h
  · exact l_not_mem_hex2 _ h

/-- The character `l` does not occur among the digits of `%.8x`. -/
theorem l_not_mem_hex8 (n : Nat) : 'l' ∉ hex8 n := by
  intro h
  rcases List.mem_append.mp h with h | h
  · exact l_not_mem_hex4 _ h
  · exact l_not_mem_hex4 _ h

/-- The character `l` does not occur among the node-byte digits. -/
theorem l_not_mem_nodeHex (node : List Nat) :
    'l' ∉ (node.map hex2).flatten := by
  intro h
  rcases List.mem_flatten.mp h with ⟨cl, hcl, hmem⟩
  rcases List.mem_map.mp hcl with ⟨n, _, rfl⟩
  exact l_not_mem_hex2 n hmem

/-- The character `l` does not occur in the encoded locator body (hex
digits and hyphens only). -/
theorem l_not_mem_uuidBody (u : TSS_UUID) : 'l' ∉ uuidBody u := by
  intro hmem
  simp only [uuidBody] at hmem
  rcases List.mem_append.mp hmem with h | h
  · rcases List.mem_append.mp h with h | h
    · rcases List.mem_append.mp h with h | h
      · rcases List.mem_append.mp h with h | h
        · rcases List.mem_append.mp h with h | h
          · rcases List.mem_append.mp h with h | h
            · rcases List.mem_append.mp h with h | h
              · rcases List.mem_append.mp h with h | h
                · rcases List.mem_append.mp h with h | h
                  · exact l_not_mem_hex8 _ h
                  · exact absurd h (by decide)
                · exact l_not_mem_hex4 _ h
              · exact absurd h (by decide)
            · exact l_not_mem_hex4 _ h
          · exact absurd h (by decide)
        · exact l_not_mem_hex2 _ h
      · exact l_not_mem_hex2 _ h
    · exact absurd h (by decide)
  · exact l_not_mem_nodeHex _ h

/-- `strstr` for `file=` fails on every encoded locator: `file=` contains
the character `l`, which never occurs in the encoded string. -/
theorem fileKey_not_found_in_encode (u : TSS_UUID) :
    afterSub fileKey (encode_tpmkey_url u) = none := by
  apply afterSub_none_of_not_mem 'l' fileKey (by decide)
  intro hmem
  rcases List.mem_append.mp hmem with h | h
  · exact absurd h (by decide)
  · exact l_not_mem_uuidBody u h

/-- `strstr` for the scheme token succeeds on every encoded locator. -/
theorem schemeKey_found_in_encode (u : TSS_UUID) :
    (afterSub schemeKey (encode_tpmkey_url u)).isSome = true := by
  show (afterSub schemeKey
    ('t' :: 'p' :: 'm' :: 'k' :: 'e' :: 'y' :: ':' :: 'u' :: 'u' :: 'i' ::
     'd' :: '=' :: uuidBody u)).isSome = true
  rw [afterSub_cons_of_found _ _ _ (by rfl)]
  rfl

/-- `strstr` for `uuid=` on an encoded locator finds the occurrence inside
`tpmkey:uuid=` and returns the body. -/
theorem uuidKey_found_in_encode (u : TSS_UUID) :
    afterSub uuidKey (encode_tpmkey_url u) = some (uuidBody u) := by
  show afterSub uuidKey
    ('t' :: 'p' :: 'm' :: 'k' :: 'e' :: 'y' :: ':' :: 'u' :: 'u' :: 'i' ::
     'd' :: '=' :: uuidBody u) = some (uuidBody u)
  rw [afterSub_cons_of_not _ _ _ (by rfl)]
  rw [afterSub_cons_of_not _ _ _ (by rfl)]
  rw [afterSub_cons_of_not _ _ _ (by rfl)]
  rw [afterSub_cons_of_not _ _ _ (by rfl)]
  rw [afterSub_cons_of_not _ _ _ (by rfl)]
  rw [afterSub_cons_of_not _ _ _ (by rfl)]
  rw [afterSub_cons_of_not _ _ _ (by rfl)]
  rw [afterSub_cons_of_found _ _ _ (by rfl)]
  rfl

/-- All characters of `%.4x` are alphanumeric. -/
theorem hex4_alnum (n : Nat) : ∀ c ∈ hex4 n, c.isAlphanum = true := by
  intro c hc
  rcases List.mem_append.mp hc with h | h
  · exact hex2_alnum _ c h
  · exact hex2_alnum _ c h

/-- All characters of `%.8x` are alphanumeric. -/
theorem hex8_alnum (n : Nat) : ∀ c ∈ hex8 n, c.isAlphanum = true := by
  intro c hc
  rcases List.mem_append.mp hc with h | h
  · exact hex4_alnum _ c h
  · exact hex4_alnum _ c h

/-- All node-byte digits are alphanumeric. -/
theorem nodeHex_alnum (node : List Nat) :
    ∀ c ∈ (node.map hex2).flatten, c.isAlphanum = true := by
  intro c hc
  rcases List.mem_flatten.mp hc with ⟨cl, hcl, hmem⟩
  rcases List.mem_map.mp hcl with ⟨n, _, rfl⟩
  exact hex2_alnum n c hmem

/-- Length of the node-byte digit run. -/
theorem nodeHex_length (node : List Nat) :
    ((node.map hex2).flatten).length = 2 * node.length := by
  induction node with
  | nil => rfl
  | cons n t ih =>
    simp only [List.map_cons, List.flatten_cons, List.length_append, ih,
      List.length_cons, hex2, List.length_nil]
    omega

/-- The alphanumeric-collection loop applied to the encoded body keeps
exactly the 32 hex digits and drops the four hyphens. -/
theorem collectAlnum_uuidBody (u : TSS_UUID) (h6 : u.rgbNode.length = 6) :
    collectAlnum 32 (uuidBody u) =
      hex8 u.ulTimeLow ++ hex4 u.usTimeMid ++ hex4 u.usTimeHigh ++
      hex2 u.bClockSeqHigh ++ hex2 u.bClockSeqLow ++
      (u.rgbNode.map hex2).flatten := by
  have l8 : (hex8 u.ulTimeLow).length = 8 := by simp [hex8, hex4, hex2]
  have l4a : (hex4 u.usTimeMid).length = 4 := by simp [hex4, hex2]
  have l4b : (hex4 u.usTimeHigh).length = 4 := by simp [hex4, hex2]
  have l2a : (hex2 u.bClockSeqHigh).length = 2 := by simp [hex2]
  have l2b : (hex2 u.bClockSeqLow).length = 2 := by simp [hex2]
  have lnode : ((u.rgbNode.map hex2).flatten).length = 12 := by
    rw [nodeHex_length, h6]
  simp only [uuidBody, List.append_assoc, List.singleton_append]
  rw [collectAlnum_append _ _ 32 (hex8_alnum _) (by omega), l8]
  norm_num
  rw [collectAlnum_skip _ _ _ (by decide) (by norm_num)]
  rw [collectAlnum_append _ _ 24 (hex4_alnum _) (by omega), l4a]
  norm_num
  rw [collectAlnum_skip _ _ _ (by decide) (by norm_num)]
  rw [collectAlnum_append _ _ 20 (hex4_alnum _) (by omega), l4b]
  norm_num
  rw [collectAlnum_skip _ _ _ (by decide) (by norm_num)]
  rw [collectAlnum_append _ _ 16 (hex2_alnum _) (by omega), l2a]
  norm_num
  rw [collectAlnum_append _ _ 14 (hex2_alnum _) (by omega), l2b]
  norm_num
  rw [collectAlnum_skip _ _ _ (by decide) (by norm_num)]
  rw [collectAlnum_all _ 12 (nodeHex_alnum _) (by omega)]

/-- Hex-decoding the concatenated digit pairs of a byte list recovers the
bytes. -/
theorem hexPairs_flatten (bs : List Nat) (hb : ∀ b ∈ bs, b < 256) :
    hexPairs ((bs.map hex2).flatten) = some bs := by
  induction bs with
  | nil => rfl
  | cons b t ih =>
    simp only [List.map_cons, List.flatten_cons]
    rw [hexPairs_hex2_append b (hb b (List.mem_cons_self _ _)) _,
      ih (fun x hx => hb x (List.mem_cons_of_mem _ hx))]
    rfl

/-- C2 (amended): for every 16-byte UUID value, encoding the `memcpy`-built
`TSS_UUID` as a locator string and decoding it back succeeds with
`uuid_set` true and recovers exactly the original 16 bytes, when the host
reads multi-byte fields most-significant-byte-first (big-endian,
`le = false`); the little-endian counterexample below shows this byte-order
condition is necessary. -/
theorem uuid_roundtrip_be (b0 b1 b2 b3 b4 b5 b6 b7 b8 b9 b10 b11 b12 b13 b14 b15 : Nat)
    (h0 : b0 < 256) (h1 : b1 < 256) (h2 : b2 < 256) (h3 : b3 < 256) (h4 : b4 < 256) (h5 : b5 < 256) (h6 : b6 < 256) (h7 : b7 < 256) (h8 : b8 < 256) (h9 : b9 < 256) (h10 : b10 < 256) (h11 : b11 < 256) (h12 : b12 < 256) (h13 : b13 < 256) (h14 : b14 < 256) (h15 : b15 < 256) :
    decode_tpmkey_url false
        (encode_tpmkey_url (bytesToUuid false [b0, b1, b2, b3, b4, b5, b6, b7, b8, b9, b10, b11, b12, b13, b14, b15])) =
      .ok ⟨none, bytesToUuid false [b0, b1, b2, b3, b4, b5, b6, b7, b8, b9, b10, b11, b12, b13, b14, b15], true⟩ ∧
    uuidToBytes false (bytesToUuid false [b0, b1, b2, b3, b4, b5, b6, b7, b8, b9, b10, b11, b12, b13, b14, b15]) = [b0, b1, b2, b3, b4, b5, b6, b7, b8, b9, b10, b11, b12, b13, b14, b15] := by
  have hb : ∀ b ∈ [b0, b1, b2, b3, b4, b5, b6, b7, b8, b9, b10, b11, b12, b13, b14, b15], b < 256 := by
    intro x hx
    simp only [List.mem_cons, List.not_mem_nil, or_false] at hx
    rcases hx with rfl | rfl | rfl | rfl | rfl | rfl | rfl | rfl | rfl | rfl |
      rfl | rfl | rfl | rfl | rfl | rfl <;> assumption
  have f1 : (bytesToUuid false [b0, b1, b2, b3, b4, b5, b6, b7, b8, b9, b10, b11, b12, b13, b14, b15]).ulTimeLow =
      ((b0 * 256 + b1) * 256 + b2) * 256 + b3 := beRead_four b0 b1 b2 b3
  have f2 : (bytesToUuid false [b0, b1, b2, b3, b4, b5, b6, b7, b8, b9, b10, b11, b12, b13, b14, b15]).usTimeMid = b4 * 256 + b5 :=
    beRead_two b4 b5
  have f3 : (bytesToUuid false [b0, b1, b2, b3, b4, b5, b6, b7, b8, b9, b10, b11, b12, b13, b14, b15]).usTimeHigh = b6 * 256 + b7 :=
    beRead_two b6 b7
  have f4 : (bytesToUuid false [b0, b1, b2, b3, b4, b5, b6, b7, b8, b9, b10, b11, b12, b13, b14, b15]).bClockSeqHigh = b8 := rfl
  have f5 : (bytesToUuid false [b0, b1, b2, b3, b4, b5, b6, b7, b8, b9, b10, b11, b12, b13, b14, b15]).bClockSeqLow = b9 := rfl
  have fn : (bytesToUuid false [b0, b1, b2, b3, b4, b5, b6, b7, b8, b9, b10, b11, b12, b13, b14, b15]).rgbNode =
      [b10, b11, b12, b13, b14, b15] := rfl
  have heq : collectAlnum 32 (uuidBody (bytesToUuid false [b0, b1, b2, b3, b4, b5, b6, b7, b8, b9, b10, b11, b12, b13, b14, b15])) =
      (([b0, b1, b2, b3, b4, b5, b6, b7, b8, b9, b10, b11, b12, b13, b14, b15] : List Nat).map hex2).flatten := by
    rw [collectAlnum_uuidBody _ (by rw [fn]; rfl)]
    rw [f1, f2, f3, f4, f5, fn]
    rw [hex8_four_bytes b0 b1 b2 b3 h0 h1 h2 h3, hex4_two_bytes b4 b5 h4 h5,
      hex4_two_bytes b6 b7 h6 h7]
    simp [List.append_assoc]
  have hbin : hex2bin16
      (collectAlnum 32 (uuidBody (bytesToUuid false [b0, b1, b2, b3, b4, b5, b6, b7, b8, b9, b10, b11, b12, b13, b14, b15]))) =
      some [b0, b1, b2, b3, b4, b5, b6, b7, b8, b9, b10, b11, b12, b13, b14, b15] := by
    rw [heq]
    unfold hex2bin16
    rw [hexPairs_flatten _ hb]
    rfl
  constructor
  · have hfile := fileKey_not_found_in_encode (bytesToUuid false [b0, b1, b2, b3, b4, b5, b6, b7, b8, b9, b10, b11, b12, b13, b14, b15])
    have hsch := schemeKey_found_in_encode (bytesToUuid false [b0, b1, b2, b3, b4, b5, b6, b7, b8, b9, b10, b11, b12, b13, b14, b15])
    have huuid := uuidKey_found_in_encode (bytesToUuid false [b0, b1, b2, b3, b4, b5, b6, b7, b8, b9, b10, b11, b12, b13, b14, b15])
    rcases ho : afterSub schemeKey
        (encode_tpmkey_url (bytesToUuid false [b0, b1, b2, b3, b4, b5, b6, b7, b8, b9, b10, b11, b12, b13, b14, b15])) with _ | q
    · rw [ho] at hsch
      exact absurd hsch (by simp)
    · simp only [decode_tpmkey_url, ho, hfile, huuid, hbin]
      rfl
  · simp only [uuidToBytes, if_neg, Bool.false_eq_true, not_false_iff]
    rw [f1, f2, f3, fn]
    rw [wordBytes4_of_bytes b0 b1 b2 b3 h0 h1 h2 h3,
      wordBytes2_of_bytes b4 b5 h4 h5, wordBytes2_of_bytes b6 b7 h6 h7]
    rfl

/-- Witness for C2's amended theorem: the concrete 16-byte value
0x00,0x01,...,0x0f round-trips on a big-endian host. -/
theorem uuid_roundtrip_be_witness :
    decode_tpmkey_url false
        (encode_tpmkey_url (bytesToUuid false
          [0, 1, 2, 3, 4, 5, 6, 7, 8, 9, 10, 11, 12, 13, 14, 15])) =
      .ok ⟨none, bytesToUuid false
        [0, 1, 2, 3, 4, 5, 6, 7, 8, 9, 10, 11, 12, 13, 14, 15], true⟩ ∧
    uuidToBytes false (bytesToUuid false
        [0, 1, 2, 3, 4, 5, 6, 7, 8, 9, 10, 11, 12, 13, 14, 15]) =
      [0, 1, 2, 3, 4, 5, 6, 7, 8, 9, 10, 11, 12, 13, 14, 15] :=
  uuid_roundtrip_be 0 1 2 3 4 5 6 7 8 9 10 11 12 13 14 15
    (by omega) (by omega) (by omega) (by omega) (by omega) (by omega)
    (by omega) (by omega) (by omega) (by omega) (by omega) (by omega)
    (by omega) (by omega) (by omega) (by omega)

/-- C2 (counterexample): on a little-endian host (`le = true`, the memcpy
byte order of the common deployment platforms) the round trip does not
return the original UUID: the encoder prints each multi-byte field's
integer value most-significant-digit-first while the decoder memcpys the
hex bytes back in memory order, so the 4- and 2-byte groups come back
byte-reversed. -/
theorem uuid_roundtrip_le_counterexample :
    decode_tpmkey_url true
        (encode_tpmkey_url (bytesToUuid true
          [1, 2, 3, 4, 5, 6, 7, 8, 9, 10, 11, 12, 13, 14, 15, 16])) ≠
      .ok ⟨none, bytesToUuid true
        [1, 2, 3, 4, 5, 6, 7, 8, 9, 10, 11, 12, 13, 14, 15, 16], true⟩ := by
  decide
